import Mathlib

/-!
Verification of the style-cascade and block-layout core of a minimal
rendering engine (files `dom.rs`, `css.rs`, `style.rs`, `layout.rs`).

Numeric pixel quantities (f32 in the source) are modelled as rationals,
so the arithmetic of the constraint solver is exact.
-/

namespace Engine

/-- CSS length units.  The source (`css.rs`) supports only `Px`. -/
inductive CssUnit where
  | Px
deriving DecidableEq, Repr

/-- CSS values (`css.rs`): keyword, pixel length, or RGBA color. -/
inductive Value where
  | Keyword (s : String)
  | Length (v : ℚ) (u : CssUnit)
  | ColorValue (r g b a : ℕ)
deriving DecidableEq, Repr

/-- Modelled from the spec: `to_px` is used by `layout.rs` but its
definition is not part of the sources given; §3 of the design document
specifies "a `to_px` projection (0 for non-length values)". -/
def Value.to_px : Value → ℚ
  | Value.Length v CssUnit.Px => v
  | _ => 0

/-- A single CSS declaration `name: value` (`css.rs`, as consumed by
`style.rs`, where the value is a `Value`). -/
structure Declaration where
  name : String
  value : Value
deriving DecidableEq, Repr

/-- A simple selector (`css.rs`): optional tag name, optional id, and a
list of class names (the source field is called `class`, a reserved word
here). -/
structure SimpleSelector where
  tag_name : Option String
  id : Option String
  cls : List String
deriving DecidableEq, Repr

/-- A selector (`css.rs`): only simple selectors exist. -/
inductive Selector where
  | Simple (s : SimpleSelector)
deriving DecidableEq, Repr

/-- A rule: selectors plus declarations (`css.rs`). -/
structure Rule where
  selectors : List Selector
  declarations : List Declaration
deriving DecidableEq, Repr

/-- A stylesheet is a series of rules (`css.rs`). -/
structure Stylesheet where
  rules : List Rule
deriving DecidableEq, Repr

/-- Specificity `(#ids, #classes, #tag-presence)` (`css.rs`). -/
def Specificity := ℕ × ℕ × ℕ
deriving DecidableEq, Repr

/-- `Selector::specificity` (`css.rs`): id count, class count, tag count. -/
def Selector.specificity : Selector → Specificity
  | Selector.Simple s =>
      (s.id.toList.length, s.cls.length, s.tag_name.toList.length)

/-- Rust tuples compare lexicographically; this is `a.cmp(&b) != Greater`
for two specificities, the order used by the cascade's sort. -/
def specLe (a b : Specificity) : Bool :=
  a.1 < b.1 ∨ (a.1 = b.1 ∧ (a.2.1 < b.2.1 ∨ (a.2.1 = b.2.1 ∧ a.2.2 ≤ b.2.2)))

/-- Element data (`dom.rs`): tag name and attribute map.  The Rust
`HashMap` with unique keys is modelled as an association list read by
first match. -/
structure ElementData where
  tag_name : String
  attributes : List (String × String)
deriving DecidableEq, Repr

/-- Attribute lookup (first binding of the key, as in a `HashMap`). -/
def ElementData.attr (e : ElementData) (k : String) : Option String :=
  (e.attributes.find? (fun p => p.1 = k)).map (fun p => p.2)

/-- `ElementData::id` (`dom.rs`): the `id` attribute. -/
def ElementData.id (e : ElementData) : Option String :=
  e.attr "id"

/-- Split a character list at every separator recognised by `p`,
keeping empty segments, exactly as Rust's `str::split` does (so
splitting the empty string yields one empty segment). -/
def splitChars (p : Char → Bool) : List Char → List (List Char)
  | [] => [[]]
  | c :: rest =>
      match splitChars p rest with
      | [] => [[]]
      | t :: ts => if p c then [] :: t :: ts else (c :: t) :: ts

/-- `ElementData::classes` (`dom.rs`): the `class` attribute split on the
single space character `' '` (Rust `class_list.split(' ')`); absent
attribute gives the empty set. -/
def ElementData.classes (e : ElementData) : List String :=
  match e.attr "class" with
  | some class_list =>
      (splitChars (fun c => c = ' ') class_list.data).map
        (fun l => String.mk l)
  | none => []

/-- Modelled from the spec: the spec's §8 test property speaks of the
element's "whitespace-split class tokens"; this is that tokenisation
(split at every whitespace character, empty tokens discarded), for
comparison with the source's space-character split above. -/
def specClassTokens (class_list : String) : List String :=
  ((splitChars (fun c => c.isWhitespace) class_list.data).map
    (fun l => String.mk l)).filter (fun t => t ≠ "")

/-- `matches_simple_selector` (`style.rs`): fails iff the selector has a
tag name different from the element's, an id different from the
element's, or a class the element lacks. -/
def matchesSimpleSelector (elem : ElementData) (selector : SimpleSelector) : Bool :=
  if selector.tag_name.any (fun name => elem.tag_name ≠ name) then false
  else if selector.id.any (fun i => elem.id ≠ some i) then false
  else if selector.cls.any (fun c => ¬ (elem.classes.contains c)) then false
  else true

/-- `matches` (`style.rs`): dispatch on the selector kind. -/
def selectorMatches (elem : ElementData) (selector : Selector) : Bool :=
  match selector with
  | Selector.Simple s => matchesSimpleSelector elem s

/-- `match_rule` (`style.rs`): the first matching selector of the rule,
paired with its specificity. -/
def matchRule (elem : ElementData) (rule : Rule) : Option (Specificity × Rule) :=
  (rule.selectors.find? (fun selector => selectorMatches elem selector)).map
    (fun selector => (selector.specificity, rule))

/-- `matching_rules` (`style.rs`): linear scan of the stylesheet. -/
def matchingRules (elem : ElementData) (stylesheet : Stylesheet) :
    List (Specificity × Rule) :=
  stylesheet.rules.filterMap (fun rule => matchRule elem rule)

/-- Property map (`style.rs`): the Rust `HashMap` is modelled as an
association list read through its first binding for a key. -/
def PropertyMap := List (String × Value)
deriving DecidableEq, Repr

/-- `HashMap::insert`: overwrite the binding for the key.  Prepending
shadows any older binding, which is exactly the observable behavior of
`HashMap::insert` through `get`. -/
def pmInsert (m : PropertyMap) (k : String) (v : Value) : PropertyMap :=
  (k, v) :: m

/-- `HashMap::get`. -/
def pmGet (m : PropertyMap) (k : String) : Option Value :=
  (List.find? (fun p => p.1 = k) m).map (fun p => p.2)

/-- The empty property map. -/
def pmEmpty : PropertyMap := []

/-- Stable insertion, the building block of a stable sort. -/
def stableInsert (le : α → α → Bool) (a : α) : List α → List α
  | [] => [a]
  | b :: l => if le a b then a :: b :: l else b :: stableInsert le a l

/-- Rust's `sort_by` is a stable sort; a stable sort for a given total
comparator is unique, so it is modelled by stable insertion sort. -/
def stableSort (le : α → α → Bool) : List α → List α
  | [] => []
  | a :: l => stableInsert le a (stableSort le l)

/-- Applying one rule's declarations in order to a property map
(the inner loop of `specified_values`). -/
def applyDecls (m : PropertyMap) (ds : List Declaration) : PropertyMap :=
  ds.foldl (fun m d => pmInsert m d.name d.value) m

/-- `specified_values` (`style.rs`): sort the matched rules ascending by
specificity (stable, so stylesheet order breaks ties) and apply each
rule's declarations in order, later writes overwriting earlier ones. -/
def specifiedValues (elem : ElementData) (stylesheet : Stylesheet) : PropertyMap :=
  let rules := stableSort (fun a b => specLe a.1 b.1) (matchingRules elem stylesheet)
  rules.foldl (fun m r => applyDecls m r.2.declarations) pmEmpty

/-- A styled node (`style.rs`): a property map plus styled children.
(The pointer back into the DOM tree plays no role in the layout claims
and is omitted from the payload.) -/
inductive StyledNode where
  | mk (specified_values : PropertyMap) (children : List StyledNode)

/-- The node's property map. -/
def StyledNode.specified_values : StyledNode → PropertyMap
  | StyledNode.mk m _ => m

/-- The node's styled children. -/
def StyledNode.children : StyledNode → List StyledNode
  | StyledNode.mk _ cs => cs

/-- `StyledNode::value` (`style.rs`): the specified value of a property,
if any. -/
def StyledNode.value (s : StyledNode) (name : String) : Option Value :=
  pmGet s.specified_values name

/-- Modelled from the spec: `lookup` is called by `layout.rs` but its
definition is not part of the sources given; §4.2 of the design document
specifies "`lookup(primary, shorthand, default)` tries `primary`, then
`shorthand`, then returns `default`". -/
def StyledNode.lookup (s : StyledNode) (primary shorthand : String)
    (default : Value) : Value :=
  ((s.value primary).or (s.value shorthand)).getD default

/-- The `display` values (`style.rs`); the source names the none-variant
`Node`. -/
inductive Display where
  | Inline
  | Block
  | Node
deriving DecidableEq, Repr

/-- `StyledNode::display` (`style.rs`): `"block"`, `"none"`, anything
else (or unset) is inline. -/
def StyledNode.display (s : StyledNode) : Display :=
  match s.value "display" with
  | some (Value.Keyword kw) =>
      if kw = "block" then Display.Block
      else if kw = "none" then Display.Node
      else Display.Inline
  | _ => Display.Inline

/-- A rectangle (`layout.rs`). -/
structure Rect where
  x : ℚ
  y : ℚ
  width : ℚ
  height : ℚ
deriving DecidableEq, Repr

/-- Edge sizes (`layout.rs`). -/
structure EdgeSizes where
  left : ℚ
  right : ℚ
  top : ℚ
  bottom : ℚ
deriving DecidableEq, Repr

/-- The box dimensions (`layout.rs`): content rectangle plus padding,
border and margin edges. -/
structure Dimensions where
  content : Rect
  padding : EdgeSizes
  border : EdgeSizes
  margin : EdgeSizes
deriving DecidableEq, Repr

/-- `Default::default()` for `Rect`: all zero. -/
def Rect.default : Rect := { x := 0, y := 0, width := 0, height := 0 }

/-- `Default::default()` for `EdgeSizes`: all zero. -/
def EdgeSizes.default : EdgeSizes :=
  { left := 0, right := 0, top := 0, bottom := 0 }

/-- `Default::default()` for `Dimensions`: all fields zero. -/
def Dimensions.default : Dimensions :=
  { content := Rect.default, padding := EdgeSizes.default,
    border := EdgeSizes.default, margin := EdgeSizes.default }

/-- `Rect::expanded_by` (`layout.rs`). -/
def Rect.expanded_by (self : Rect) (edge : EdgeSizes) : Rect :=
  { x := self.x - edge.left,
    y := self.y - edge.top,
    width := self.width + edge.left + edge.right,
    height := self.height + edge.top + edge.bottom }

/-- `Dimensions::padding_box` (`layout.rs`). -/
def Dimensions.padding_box (self : Dimensions) : Rect :=
  self.content.expanded_by self.padding

/-- `Dimensions::border_box` (`layout.rs`). -/
def Dimensions.border_box (self : Dimensions) : Rect :=
  self.padding_box.expanded_by self.border

/-- `Dimensions::margin_box` (`layout.rs`). -/
def Dimensions.margin_box (self : Dimensions) : Rect :=
  self.border_box.expanded_by self.margin

/-- The box types (`layout.rs`): block node, inline node, or anonymous
block, the first two carrying their styled node. -/
inductive BoxType where
  | BlockNode (s : StyledNode)
  | InlineNode (s : StyledNode)
  | AnonymousBlock

/-- A layout box (`layout.rs`): dimensions, box type and child boxes. -/
inductive LayoutBox where
  | mk (dimensions : Dimensions) (box_type : BoxType) (children : List LayoutBox)

/-- The box's dimensions. -/
def LayoutBox.dimensions : LayoutBox → Dimensions
  | LayoutBox.mk d _ _ => d

/-- The box's type. -/
def LayoutBox.box_type : LayoutBox → BoxType
  | LayoutBox.mk _ bt _ => bt

/-- The box's children. -/
def LayoutBox.children : LayoutBox → List LayoutBox
  | LayoutBox.mk _ _ cs => cs

/-- `LayoutBox::new` (`layout.rs`): fresh box with zeroed dimensions and
no children. -/
def LayoutBox.new (bt : BoxType) : LayoutBox :=
  LayoutBox.mk Dimensions.default bt []

/-- `LayoutBox::get_style_node` (`layout.rs`): the styled node of a
block or inline box; the source panics on an anonymous block, modelled
as `none`. -/
def LayoutBox.get_style_node (b : LayoutBox) : Option StyledNode :=
  match b.box_type with
  | BoxType.BlockNode node => some node
  | BoxType.InlineNode node => some node
  | BoxType.AnonymousBlock => none

/-- Append a box to another box's children (`root.children.push(..)`). -/
def pushChild (root : LayoutBox) (b : LayoutBox) : LayoutBox :=
  LayoutBox.mk root.dimensions root.box_type (root.children ++ [b])

/-- Is the box an anonymous block? -/
def LayoutBox.isAnon (b : LayoutBox) : Bool :=
  match b.box_type with
  | BoxType.AnonymousBlock => true
  | _ => false

/-- `LayoutBox::get_inline_container` composed with the push that the
builder performs on it (`layout.rs`): an inline or anonymous box takes
the child itself; a block box pushes into its last child if that is an
anonymous block, otherwise into a freshly appended anonymous block. -/
def pushViaInlineContainer (root : LayoutBox) (b : LayoutBox) : LayoutBox :=
  match root.box_type with
  | BoxType.InlineNode _ => pushChild root b
  | BoxType.AnonymousBlock => pushChild root b
  | BoxType.BlockNode _ =>
      match root.children.getLast? with
      | some last =>
          if last.isAnon then
            LayoutBox.mk root.dimensions root.box_type
              (root.children.dropLast ++ [pushChild last b])
          else
            pushChild root (pushChild (LayoutBox.new BoxType.AnonymousBlock) b)
      | none =>
          pushChild root (pushChild (LayoutBox.new BoxType.AnonymousBlock) b)

mutual

/-- `build_layout_tree` (`layout.rs`): build the box for a styled node;
the panic on a root with `display: none` is modelled as `none`. -/
def buildLayoutTree (style_node : StyledNode) : Option LayoutBox :=
  match style_node.display with
  | Display.Block =>
      buildChildren style_node.children (LayoutBox.new (BoxType.BlockNode style_node))
  | Display.Inline =>
      buildChildren style_node.children (LayoutBox.new (BoxType.InlineNode style_node))
  | Display.Node => none
termination_by sizeOf style_node
decreasing_by
  all_goals simp_wf
  all_goals cases style_node with
  | mk m cs => simp [StyledNode.children]

/-- The child loop of `build_layout_tree`: block children are pushed
directly, inline children go through the inline container, none children
are skipped. -/
def buildChildren (cs : List StyledNode) (root : LayoutBox) : Option LayoutBox :=
  match cs with
  | [] => some root
  | c :: rest =>
      match c.display with
      | Display.Block =>
          match buildLayoutTree c with
          | some b => buildChildren rest (pushChild root b)
          | none => none
      | Display.Inline =>
          match buildLayoutTree c with
          | some b => buildChildren rest (pushViaInlineContainer root b)
          | none => none
      | Display.Node => buildChildren rest root
termination_by sizeOf cs
decreasing_by
  all_goals simp_wf
  all_goals omega

end

/-- The keyword `auto`. -/
def autoVal : Value := Value.Keyword "auto"

/-- The length `0px`. -/
def zeroLen : Value := Value.Length 0 CssUnit.Px

/-- The sum of the pixel values of the seven horizontal quantities
(line 249 of `layout.rs`; auto counts as 0 via `to_px`). -/
def horizontalTotal (margin_left margin_right border_left border_right
    padding_left padding_right width : Value) : ℚ :=
  margin_left.to_px + margin_right.to_px + border_left.to_px +
    border_right.to_px + padding_left.to_px + padding_right.to_px + width.to_px

/-- The constraint solve of `calculate_block_width` (`layout.rs`, lines
249-331): the over-constraint pre-repair followed by the match on which
of width / margin-left / margin-right are auto.  Returns the used
(width, margin-left, margin-right). -/
def solveWidth (cbw : ℚ) (width margin_left margin_right border_left
    border_right padding_left padding_right : Value) : Value × Value × Value :=
  let total := horizontalTotal margin_left margin_right border_left
    border_right padding_left padding_right width
  -- If width is not auto and the total is wider than the container,
  -- treat auto margins as 0.
  let margin_left :=
    if width ≠ autoVal ∧ total > cbw ∧ margin_left = autoVal
    then zeroLen else margin_left
  let margin_right :=
    if width ≠ autoVal ∧ total > cbw ∧ margin_right = autoVal
    then zeroLen else margin_right
  let underflow := cbw - total
  -- The match on (width == auto, margin_left == auto, margin_right == auto).
  if width = autoVal then
    -- (true, _, _): auto margins become 0, then width absorbs the
    -- underflow if nonnegative, else margin_right absorbs it.
    let margin_left := if margin_left = autoVal then zeroLen else margin_left
    let margin_right := if margin_right = autoVal then zeroLen else margin_right
    if underflow ≥ 0 then
      (Value.Length underflow CssUnit.Px, margin_left, margin_right)
    else
      (Value.Length 0 CssUnit.Px, margin_left,
        Value.Length (margin_right.to_px + underflow) CssUnit.Px)
  else if margin_left = autoVal then
    if margin_right = autoVal then
      -- (false, true, true): split the underflow evenly.
      (width, Value.Length (underflow / 2) CssUnit.Px,
        Value.Length (underflow / 2) CssUnit.Px)
    else
      -- (false, true, false): margin_left absorbs the underflow.
      (width, Value.Length underflow CssUnit.Px, margin_right)
  else if margin_right = autoVal then
    -- (false, false, true): margin_right absorbs the underflow.
    (width, margin_left, Value.Length underflow CssUnit.Px)
  else
    -- (false, false, false): overconstrained, adjust margin_right.
    (width, margin_left, Value.Length (margin_right.to_px + underflow) CssUnit.Px)

/-- `calculate_block_width` (`layout.rs`): look up the width and the six
horizontal edge properties, run the constraint solve against the
containing block, and store the used horizontal values. -/
def calculateBlockWidth (style : StyledNode) (d : Dimensions)
    (containing_block : Dimensions) : Dimensions :=
  let width := (style.value "width").getD autoVal
  let margin_left := style.lookup "margin-left" "margin" zeroLen
  let margin_right := style.lookup "margin-right" "margin" zeroLen
  let border_left := style.lookup "border-left-width" "border-width" zeroLen
  let border_right := style.lookup "border-right-width" "border-width" zeroLen
  let padding_left := style.lookup "padding-left" "padding" zeroLen
  let padding_right := style.lookup "padding-right" "padding" zeroLen
  let resolved := solveWidth containing_block.content.width width margin_left
    margin_right border_left border_right padding_left padding_right
  { d with
    content := { d.content with width := resolved.1.to_px },
    padding := { d.padding with left := padding_left.to_px, right := padding_right.to_px },
    border := { d.border with left := border_left.to_px, right := border_right.to_px },
    margin := { d.margin with left := resolved.2.1.to_px, right := resolved.2.2.to_px } }

/-- `calculate_block_position` (`layout.rs`): resolve the vertical edge
sizes and place the box below the accumulated content of its containing
block. -/
def calculateBlockPosition (style : StyledNode) (d : Dimensions)
    (containing_block : Dimensions) : Dimensions :=
  let margin_top := (style.lookup "margin-top" "margin" zeroLen).to_px
  let margin_bottom := (style.lookup "margin-bottom" "margin" zeroLen).to_px
  let border_top := (style.lookup "border-top-width" "border-width" zeroLen).to_px
  let border_bottom := (style.lookup "border-bottom-width" "border-width" zeroLen).to_px
  let padding_top := (style.lookup "padding-top" "padding" zeroLen).to_px
  let padding_bottom := (style.lookup "padding-bottom" "padding" zeroLen).to_px
  { d with
    margin := { d.margin with top := margin_top, bottom := margin_bottom },
    border := { d.border with top := border_top, bottom := border_bottom },
    padding := { d.padding with top := padding_top, bottom := padding_bottom },
    content := { d.content with
      x := containing_block.content.x + d.margin.left + d.border.left + d.padding.left,
      y := containing_block.content.height + containing_block.content.y +
        margin_top + border_top + padding_top } }

/-- `calculate_block_height` (`layout.rs`): an explicit pixel `height`
overrides the accumulated content height. -/
def calculateBlockHeight (style : StyledNode) (d : Dimensions) : Dimensions :=
  match style.value "height" with
  | some (Value.Length h CssUnit.Px) =>
      { d with content := { d.content with height := h } }
  | _ => d

/-- The height bookkeeping of `layout_block_children` (`layout.rs`,
line 401): grow the content height by the child's margin-box height so
the next child is laid out below the previous content. -/
def bumpHeight (d : Dimensions) (child : LayoutBox) : Dimensions :=
  { d with content := { d.content with
    height := d.content.height + child.dimensions.margin_box.height } }

mutual

/-- `LayoutBox::layout` (`layout.rs`): block boxes run the block
algorithm; inline and anonymous boxes are no-ops. -/
def layoutBox (b : LayoutBox) (containing_block : Dimensions) : Option LayoutBox :=
  match b.box_type with
  | BoxType.BlockNode _ => layoutBlock b containing_block
  | BoxType.InlineNode _ => some b
  | BoxType.AnonymousBlock => some b
termination_by (sizeOf b, 1)

/-- `LayoutBox::layout_block` (`layout.rs`): width, then position, then
children, then height.  A `get_style_node` panic is modelled as `none`. -/
def layoutBlock (b : LayoutBox) (containing_block : Dimensions) : Option LayoutBox :=
  match b.get_style_node with
  | none => none
  | some style =>
      let d := calculateBlockWidth style b.dimensions containing_block
      let d := calculateBlockPosition style d containing_block
      match layoutChildren b.children d with
      | none => none
      | some (children, d) =>
          some (LayoutBox.mk (calculateBlockHeight style d) b.box_type children)
termination_by (sizeOf b, 0)
decreasing_by
  all_goals refine Prod.Lex.left _ _ ?_
  all_goals cases b with
  | mk d bt cs => simp [LayoutBox.children]

/-- `LayoutBox::layout_block_children` (`layout.rs`): lay out each child
against the box's current dimensions, then grow the content height by
the child's margin-box height. -/
def layoutChildren (cs : List LayoutBox) (d : Dimensions) :
    Option (List LayoutBox × Dimensions) :=
  match cs with
  | [] => some ([], d)
  | c :: rest =>
      match layoutBox c d with
      | none => none
      | some c2 =>
          match layoutChildren rest (bumpHeight d c2) with
          | none => none
          | some (rest2, d3) => some (c2 :: rest2, d3)
termination_by (sizeOf cs, 0)

end

/-- `layout_tree` (`layout.rs`): zero the containing block's content
height, build the layout tree and lay it out. -/
def layoutTree (node : StyledNode) (containing_block : Dimensions) :
    Option LayoutBox :=
  let cb := { containing_block with
    content := { containing_block.content with height := 0 } }
  match buildLayoutTree node with
  | none => none
  | some root => layoutBox root cb

/-! ### Predicates over the layout tree, and concrete inputs -/

/-- Block-like box types: block nodes and anonymous blocks. -/
def blockLike : BoxType → Bool
  | BoxType.BlockNode _ => true
  | BoxType.InlineNode _ => false
  | BoxType.AnonymousBlock => true

/-- Inline-like box types: inline nodes. -/
def inlineLike : BoxType → Bool
  | BoxType.InlineNode _ => true
  | _ => false

/-- A box's direct children are homogeneous: all block-like or all
inline-like. -/
def homogeneousChildren (b : LayoutBox) : Bool :=
  b.children.all (fun c => blockLike c.box_type) ||
    b.children.all (fun c => inlineLike c.box_type)

mutual

/-- Does the predicate hold of every box of a layout tree? -/
def allBoxes (p : LayoutBox → Bool) (b : LayoutBox) : Bool :=
  p b && allBoxesList p b.children
termination_by (sizeOf b, 1)
decreasing_by
  refine Prod.Lex.left _ _ ?_
  cases b with
  | mk d bt cs => simp [LayoutBox.children]

/-- Does the predicate hold of every box of every tree in the list? -/
def allBoxesList (p : LayoutBox → Bool) (cs : List LayoutBox) : Bool :=
  match cs with
  | [] => true
  | c :: rest => allBoxes p c && allBoxesList p rest
termination_by (sizeOf cs, 0)

end

/-- The homogeneity that the builder actually guarantees: a block box
has only block-like children, an anonymous block only inline children
(each of which implies `homogeneousChildren`); an inline box is
unconstrained. -/
def blockAnonHomogeneous (b : LayoutBox) : Bool :=
  match b.box_type with
  | BoxType.BlockNode _ => b.children.all (fun c => blockLike c.box_type)
  | BoxType.AnonymousBlock => b.children.all (fun c => inlineLike c.box_type)
  | BoxType.InlineNode _ => true

/-- The value of the last declaration of a property within one rule's
declaration list, if any. -/
def lastDeclVal (ds : List Declaration) (k : String) : Option Value :=
  ds.foldl (fun acc d => if d.name = k then some d.value else acc) none

/-- The value for a property contributed by the last rule of a matched
list that declares it, if any. -/
def lastRuleVal (rs : List (Specificity × Rule)) (n : String) : Option Value :=
  rs.foldl (fun acc z => (lastDeclVal z.2.declarations n).or acc) none

/-- A `div` element carrying `id="x"`. -/
def exElemX : ElementData := ElementData.mk "div" [("id", "x")]

/-- The rule `div { color: red }`. -/
def exRuleRed : Rule :=
  Rule.mk [Selector.Simple (SimpleSelector.mk (some "div") none [])]
    [Declaration.mk "color" (Value.Keyword "red")]

/-- The rule `div { color: blue }`. -/
def exRuleBlue : Rule :=
  Rule.mk [Selector.Simple (SimpleSelector.mk (some "div") none [])]
    [Declaration.mk "color" (Value.Keyword "blue")]

/-- The rule `#x { color: green }`, of higher specificity. -/
def exRuleGreen : Rule :=
  Rule.mk [Selector.Simple (SimpleSelector.mk none (some "x") [])]
    [Declaration.mk "color" (Value.Keyword "green")]

/-- The rule `span { color: black }`, which does not match `exElemX`. -/
def exRuleSpan : Rule :=
  Rule.mk [Selector.Simple (SimpleSelector.mk (some "span") none [])]
    [Declaration.mk "color" (Value.Keyword "black")]

/-- The rule `div { font-size: 16px }`, which matches `exElemX` but
does not declare `color`. -/
def exRuleFont : Rule :=
  Rule.mk [Selector.Simple (SimpleSelector.mk (some "div") none [])]
    [Declaration.mk "font-size" (Value.Length 16 CssUnit.Px)]

/-- A containing block of content width 800 at the origin. -/
def cbWidth800 : Dimensions :=
  { Dimensions.default with content := { Rect.default with width := 800 } }

/-- A styled node with no specified values: its display is inline. -/
def exInlineChild : StyledNode := StyledNode.mk [] []

/-- A styled node with `display: block` and no children. -/
def exBlockChild : StyledNode :=
  StyledNode.mk [("display", Value.Keyword "block")] []

/-- An inline-display root holding a block child then an inline child:
the builder gives it mixed direct children. -/
def exInlineMix : StyledNode := StyledNode.mk [] [exBlockChild, exInlineChild]

/-- A block-display root holding an inline child then a block child:
the builder wraps the inline child in an anonymous block. -/
def exBlockRoot : StyledNode :=
  StyledNode.mk [("display", Value.Keyword "block")] [exInlineChild, exBlockChild]

/-! ### The width constraint solve -/

/-- `to_px` of the keyword `auto` is 0. -/
theorem to_px_autoVal : autoVal.to_px = 0 := rfl

/-- `to_px` of the length `0px` is 0. -/
theorem to_px_zeroLen : zeroLen.to_px = 0 := rfl

/-- Every arm of the width solve adjusts the used values so that the
seven horizontal quantities sum exactly to the containing width. -/
theorem solveWidth_total (cbw : ℚ) (w ml mr bl br pl pr : Value) :
    (solveWidth cbw w ml mr bl br pl pr).2.1.to_px + bl.to_px + pl.to_px +
      (solveWidth cbw w ml mr bl br pl pr).1.to_px + pr.to_px + br.to_px +
      (solveWidth cbw w ml mr bl br pl pr).2.2.to_px = cbw := by
  simp only [solveWidth, horizontalTotal]
  split_ifs <;>
    simp_all only [Value.to_px, autoVal, zeroLen, ne_eq, not_and, not_lt, not_le] <;>
    ring_nf

/-- The horizontal fields stored by `calculate_block_width`. -/
theorem calculateBlockWidth_fields (style : StyledNode) (d cb : Dimensions) :
    (calculateBlockWidth style d cb).margin.left =
      (solveWidth cb.content.width ((style.value "width").getD autoVal)
        (style.lookup "margin-left" "margin" zeroLen)
        (style.lookup "margin-right" "margin" zeroLen)
        (style.lookup "border-left-width" "border-width" zeroLen)
        (style.lookup "border-right-width" "border-width" zeroLen)
        (style.lookup "padding-left" "padding" zeroLen)
        (style.lookup "padding-right" "padding" zeroLen)).2.1.to_px ∧
    (calculateBlockWidth style d cb).margin.right =
      (solveWidth cb.content.width ((style.value "width").getD autoVal)
        (style.lookup "margin-left" "margin" zeroLen)
        (style.lookup "margin-right" "margin" zeroLen)
        (style.lookup "border-left-width" "border-width" zeroLen)
        (style.lookup "border-right-width" "border-width" zeroLen)
        (style.lookup "padding-left" "padding" zeroLen)
        (style.lookup "padding-right" "padding" zeroLen)).2.2.to_px ∧
    (calculateBlockWidth style d cb).content.width =
      (solveWidth cb.content.width ((style.value "width").getD autoVal)
        (style.lookup "margin-left" "margin" zeroLen)
        (style.lookup "margin-right" "margin" zeroLen)
        (style.lookup "border-left-width" "border-width" zeroLen)
        (style.lookup "border-right-width" "border-width" zeroLen)
        (style.lookup "padding-left" "padding" zeroLen)
        (style.lookup "padding-right" "padding" zeroLen)).1.to_px ∧
    (calculateBlockWidth style d cb).border.left =
      (style.lookup "border-left-width" "border-width" zeroLen).to_px ∧
    (calculateBlockWidth style d cb).border.right =
      (style.lookup "border-right-width" "border-width" zeroLen).to_px ∧
    (calculateBlockWidth style d cb).padding.left =
      (style.lookup "padding-left" "padding" zeroLen).to_px ∧
    (calculateBlockWidth style d cb).padding.right =
      (style.lookup "padding-right" "padding" zeroLen).to_px := by
  simp [calculateBlockWidth]

/-- Claim C1: for a block box whose `width` resolves to auto, or for
which exactly one of margin-left / margin-right resolves to auto with no
over-constraint, the dimensions stored by `calculate_block_width`
satisfy `margin.left + border.left + padding.left + content.width +
padding.right + border.right + margin.right = containing block's
content width`.  (The hypothesis mirrors the claim; the equality in fact
holds for every resolved block box.) -/
theorem width_solve_totals_to_container (style : StyledNode)
    (d containing_block : Dimensions)
    (h : (style.value "width").getD autoVal = autoVal ∨
      ((style.value "width").getD autoVal ≠ autoVal ∧
        ((style.lookup "margin-left" "margin" zeroLen = autoVal ∧
            style.lookup "margin-right" "margin" zeroLen ≠ autoVal) ∨
          (style.lookup "margin-left" "margin" zeroLen ≠ autoVal ∧
            style.lookup "margin-right" "margin" zeroLen = autoVal)) ∧
        horizontalTotal (style.lookup "margin-left" "margin" zeroLen)
          (style.lookup "margin-right" "margin" zeroLen)
          (style.lookup "border-left-width" "border-width" zeroLen)
          (style.lookup "border-right-width" "border-width" zeroLen)
          (style.lookup "padding-left" "padding" zeroLen)
          (style.lookup "padding-right" "padding" zeroLen)
          ((style.value "width").getD autoVal) ≤
          containing_block.content.width)) :
    (calculateBlockWidth style d containing_block).margin.left +
      (calculateBlockWidth style d containing_block).border.left +
      (calculateBlockWidth style d containing_block).padding.left +
      (calculateBlockWidth style d containing_block).content.width +
      (calculateBlockWidth style d containing_block).padding.right +
      (calculateBlockWidth style d containing_block).border.right +
      (calculateBlockWidth style d containing_block).margin.right =
      containing_block.content.width := by
  obtain ⟨hml, hmr, hw, hbl, hbr, hpl, hpr⟩ :=
    calculateBlockWidth_fields style d containing_block
  rw [hml, hmr, hw, hbl, hbr, hpl, hpr]
  exact solveWidth_total containing_block.content.width _ _ _ _ _ _ _

/-- Witness for claim C1, at a styled node with no specified values
(width auto) against a containing block of width 800. -/
theorem width_solve_totals_to_container_witness :
    ((StyledNode.mk [] []).value "width").getD autoVal = autoVal ∧
    (calculateBlockWidth (StyledNode.mk [] []) Dimensions.default cbWidth800).margin.left +
      (calculateBlockWidth (StyledNode.mk [] []) Dimensions.default cbWidth800).border.left +
      (calculateBlockWidth (StyledNode.mk [] []) Dimensions.default cbWidth800).padding.left +
      (calculateBlockWidth (StyledNode.mk [] []) Dimensions.default cbWidth800).content.width +
      (calculateBlockWidth (StyledNode.mk [] []) Dimensions.default cbWidth800).padding.right +
      (calculateBlockWidth (StyledNode.mk [] []) Dimensions.default cbWidth800).border.right +
      (calculateBlockWidth (StyledNode.mk [] []) Dimensions.default cbWidth800).margin.right =
      cbWidth800.content.width :=
  ⟨rfl, width_solve_totals_to_container (StyledNode.mk [] []) Dimensions.default
    cbWidth800 (Or.inl rfl)⟩

/-- The width solve when `width` is the keyword auto: auto margins
become 0, then the nonnegative underflow becomes the width, or a
negative underflow is absorbed into margin-right with width 0. -/
theorem solveWidth_auto (cbw : ℚ) (w ml mr bl br pl pr : Value)
    (hw : w = autoVal) :
    solveWidth cbw w ml mr bl br pl pr =
      if cbw - horizontalTotal ml mr bl br pl pr w ≥ 0 then
        (Value.Length (cbw - horizontalTotal ml mr bl br pl pr w) CssUnit.Px,
          (if ml = autoVal then zeroLen else ml),
          (if mr = autoVal then zeroLen else mr))
      else
        (Value.Length 0 CssUnit.Px,
          (if ml = autoVal then zeroLen else ml),
          Value.Length ((if mr = autoVal then zeroLen else mr).to_px +
            (cbw - horizontalTotal ml mr bl br pl pr w)) CssUnit.Px) := by
  subst hw
  simp [solveWidth]

/-- Claim C4: in `calculate_block_width`, when `width` resolves to the
keyword auto, auto margins are set to 0, then: if the underflow (the
containing content width minus the seven horizontal quantities, auto
counted as 0) is nonnegative, the content width is set to the underflow;
otherwise the content width is set to 0 and margin-right becomes its
pixel value plus the negative underflow. -/
theorem width_auto_branch (style : StyledNode) (d cb : Dimensions)
    (ml mr : Value) (u : ℚ)
    (hw : (style.value "width").getD autoVal = autoVal)
    (hml : ml = style.lookup "margin-left" "margin" zeroLen)
    (hmr : mr = style.lookup "margin-right" "margin" zeroLen)
    (hu : u = cb.content.width - horizontalTotal ml mr
      (style.lookup "border-left-width" "border-width" zeroLen)
      (style.lookup "border-right-width" "border-width" zeroLen)
      (style.lookup "padding-left" "padding" zeroLen)
      (style.lookup "padding-right" "padding" zeroLen)
      ((style.value "width").getD autoVal)) :
    (0 ≤ u →
      (calculateBlockWidth style d cb).content.width = u ∧
      (calculateBlockWidth style d cb).margin.left =
        (if ml = autoVal then zeroLen else ml).to_px ∧
      (calculateBlockWidth style d cb).margin.right =
        (if mr = autoVal then zeroLen else mr).to_px) ∧
    (u < 0 →
      (calculateBlockWidth style d cb).content.width = 0 ∧
      (calculateBlockWidth style d cb).margin.left =
        (if ml = autoVal then zeroLen else ml).to_px ∧
      (calculateBlockWidth style d cb).margin.right =
        (if mr = autoVal then zeroLen else mr).to_px + u) := by
  obtain ⟨hfml, hfmr, hfw, _, _, _, _⟩ := calculateBlockWidth_fields style d cb
  rw [hfml, hfmr, hfw,
    solveWidth_auto cb.content.width ((style.value "width").getD autoVal)
      (style.lookup "margin-left" "margin" zeroLen)
      (style.lookup "margin-right" "margin" zeroLen)
      (style.lookup "border-left-width" "border-width" zeroLen)
      (style.lookup "border-right-width" "border-width" zeroLen)
      (style.lookup "padding-left" "padding" zeroLen)
      (style.lookup "padding-right" "padding" zeroLen) hw]
  subst hml hmr
  constructor
  · intro hu0
    rw [if_pos (by rw [← hu]; exact hu0)]
    exact ⟨by simp [Value.to_px, hu], rfl, rfl⟩
  · intro hu0
    rw [if_neg (by rw [← hu]; exact not_le.mpr hu0)]
    exact ⟨by simp [Value.to_px], rfl, by simp [Value.to_px, hu]⟩

/-- Witness for claim C4: a styled node with no specified values (width
auto, margins auto-free) against a containing block of width 800; the
underflow is 800 and becomes the content width. -/
theorem width_auto_branch_witness :
    ((StyledNode.mk [] []).value "width").getD autoVal = autoVal ∧
    ((0 : ℚ) ≤ 800 →
      (calculateBlockWidth (StyledNode.mk [] []) Dimensions.default cbWidth800).content.width = 800 ∧
      (calculateBlockWidth (StyledNode.mk [] []) Dimensions.default cbWidth800).margin.left =
        (if zeroLen = autoVal then zeroLen else zeroLen).to_px ∧
      (calculateBlockWidth (StyledNode.mk [] []) Dimensions.default cbWidth800).margin.right =
        (if zeroLen = autoVal then zeroLen else zeroLen).to_px) ∧
    ((800 : ℚ) < 0 →
      (calculateBlockWidth (StyledNode.mk [] []) Dimensions.default cbWidth800).content.width = 0 ∧
      (calculateBlockWidth (StyledNode.mk [] []) Dimensions.default cbWidth800).margin.left =
        (if zeroLen = autoVal then zeroLen else zeroLen).to_px ∧
      (calculateBlockWidth (StyledNode.mk [] []) Dimensions.default cbWidth800).margin.right =
        (if zeroLen = autoVal then zeroLen else zeroLen).to_px + 800) := by
  refine ⟨rfl, ?_⟩
  have h := width_auto_branch (StyledNode.mk [] []) Dimensions.default cbWidth800
    zeroLen zeroLen 800 rfl rfl rfl (by norm_num [horizontalTotal, cbWidth800,
      Value.to_px, zeroLen, autoVal, StyledNode.lookup, StyledNode.value,
      StyledNode.specified_values, pmGet, Dimensions.default, Rect.default])
  exact h

/-! ### The cascade -/

/-- Folding declarations from an arbitrary accumulator: the last
matching declaration wins, falling back to the accumulator. -/
theorem lastDeclVal_foldl (ds : List Declaration) (k : String)
    (acc : Option Value) :
    ds.foldl (fun acc d => if d.name = k then some d.value else acc) acc =
      (lastDeclVal ds k).or acc := by
  induction ds generalizing acc with
  | nil => simp [lastDeclVal]
  | cons d ds ih =>
      simp only [List.foldl_cons, lastDeclVal] at *
      rw [ih, ih (if d.name = k then some d.value else none)]
      by_cases h : d.name = k <;> simp [h, Option.or_assoc]

/-- Reading an inserted binding: the new value for its key, the old map
elsewhere. -/
theorem pmGet_pmInsert (m : PropertyMap) (k k2 : String) (v : Value) :
    pmGet (pmInsert m k v) k2 = if k2 = k then some v else pmGet m k2 := by
  by_cases h : k2 = k
  · subst h
    simp [pmGet, pmInsert, List.find?]
  · have h2 : ¬ k = k2 := fun hh => h hh.symm
    simp [pmGet, pmInsert, List.find?, h, h2]

/-- Applying a declaration list then reading a property: the last
declaration of that property wins, falling back to the previous map. -/
theorem pmGet_applyDecls (m : PropertyMap) (ds : List Declaration) (k : String) :
    pmGet (applyDecls m ds) k = (lastDeclVal ds k).or (pmGet m k) := by
  induction ds generalizing m with
  | nil => simp [applyDecls, lastDeclVal]
  | cons d ds ih =>
      simp only [applyDecls, List.foldl_cons] at *
      rw [ih, pmGet_pmInsert]
      simp only [lastDeclVal, List.foldl_cons]
      rw [lastDeclVal_foldl ds k (if d.name = k then some d.value else none)]
      by_cases h : d.name = k
      · rw [if_pos h, if_pos h.symm, Option.or_assoc]
        simp [lastDeclVal]
      · rw [if_neg h, if_neg (fun hh => h hh.symm)]
        simp [lastDeclVal]

/-- Lexicographic comparison of specificities is reflexive. -/
theorem specLe_refl (a : Specificity) : specLe a a = true := by
  simp [specLe]

/-- Folding the last-declared values of a matched-rule list from an
arbitrary accumulator: the list's own result wins, falling back to the
accumulator. -/
theorem lastRuleVal_foldl (rs : List (Specificity × Rule)) (n : String)
    (acc : Option Value) :
    rs.foldl (fun acc z => (lastDeclVal z.2.declarations n).or acc) acc =
      (lastRuleVal rs n).or acc := by
  induction rs generalizing acc with
  | nil => simp [lastRuleVal]
  | cons z rs ih =>
      simp only [List.foldl_cons, lastRuleVal] at *
      rw [ih, ih ((lastDeclVal z.2.declarations n).or none)]
      simp [Option.or_assoc]

/-- Peeling the head off `lastRuleVal`: later rules override it. -/
theorem lastRuleVal_cons (z : Specificity × Rule)
    (rs : List (Specificity × Rule)) (n : String) :
    lastRuleVal (z :: rs) n =
      (lastRuleVal rs n).or (lastDeclVal z.2.declarations n) := by
  simp only [lastRuleVal, List.foldl_cons]
  rw [lastRuleVal_foldl]
  simp [lastRuleVal]

/-- `lastRuleVal` over an append: the second part wins. -/
theorem lastRuleVal_append (A B : List (Specificity × Rule)) (n : String) :
    lastRuleVal (A ++ B) n = (lastRuleVal B n).or (lastRuleVal A n) := by
  simp only [lastRuleVal, List.foldl_append]
  rw [lastRuleVal_foldl]
  simp [lastRuleVal]

/-- A list none of whose rules declares the property contributes
nothing. -/
theorem lastRuleVal_none (L : List (Specificity × Rule)) (n : String)
    (h : ∀ z ∈ L, lastDeclVal z.2.declarations n = none) :
    lastRuleVal L n = none := by
  induction L with
  | nil => simp [lastRuleVal]
  | cons z rs ih =>
      rw [lastRuleVal_cons, ih (fun x hx => h x (by simp [hx])), h z (by simp)]
      simp

/-- Reading a property after applying a whole rule list: the last rule
declaring it wins, falling back to the previous map. -/
theorem pmGet_foldRules (rs : List (Specificity × Rule)) (m0 : PropertyMap)
    (n : String) :
    pmGet (rs.foldl (fun m z => applyDecls m z.2.declarations) m0) n =
      (lastRuleVal rs n).or (pmGet m0 n) := by
  induction rs generalizing m0 with
  | nil => simp [lastRuleVal]
  | cons z rs ih =>
      simp only [List.foldl_cons]
      rw [ih, pmGet_applyDecls, lastRuleVal_cons, Option.or_assoc]

/-- Membership through a stable insertion. -/
theorem mem_stableInsert (le : α → α → Bool) (a x : α) (l : List α) :
    x ∈ stableInsert le a l ↔ x = a ∨ x ∈ l := by
  induction l with
  | nil => simp [stableInsert]
  | cons b rest ih =>
      rw [stableInsert]
      by_cases h : le a b = true
      · rw [if_pos h]
        simp
      · rw [if_neg h]
        simp only [List.mem_cons, ih]
        tauto

/-- The stable sort permutes: its members come from the input list. -/
theorem mem_stableSort (le : α → α → Bool) (x : α) (l : List α)
    (h : x ∈ stableSort le l) : x ∈ l := by
  induction l with
  | nil => simp [stableSort] at h
  | cons b rest ih =>
      rw [stableSort, mem_stableInsert] at h
      cases h with
      | inl h => simp [h]
      | inr h => simp [ih h]

/-- `match_rule` always pairs the specificity with the rule itself. -/
theorem matchRule_snd (elem : ElementData) (r : Rule) (z : Specificity × Rule)
    (h : matchRule elem r = some z) : z.2 = r := by
  unfold matchRule at h
  cases hf : r.selectors.find? (fun selector => selectorMatches elem selector) with
  | none =>
      rw [hf] at h
      simp at h
  | some sel =>
      rw [hf] at h
      simp at h
      rw [← h]

/-- Stable insertion of a rule whose specificity is at most that of
every declarer of the property: the existing declarers still win. -/
theorem lastRuleVal_stableInsert (a : Specificity × Rule)
    (L : List (Specificity × Rule)) (n : String)
    (h : ∀ z ∈ L, lastDeclVal z.2.declarations n ≠ none →
      (lastDeclVal a.2.declarations n = none ∨ specLe a.1 z.1 = true)) :
    lastRuleVal (stableInsert (fun p q => specLe p.1 q.1) a L) n =
      (lastRuleVal L n).or (lastDeclVal a.2.declarations n) := by
  induction L with
  | nil =>
      rw [stableInsert, lastRuleVal_cons]
  | cons b rest ih =>
      rw [stableInsert]
      by_cases hle : specLe a.1 b.1 = true
      · rw [if_pos hle, lastRuleVal_cons, lastRuleVal_cons]
      · rw [if_neg hle, lastRuleVal_cons,
          ih (fun z hz hd => h z (by simp [hz]) hd),
          lastRuleVal_cons]
        by_cases hb : lastDeclVal b.2.declarations n = none
        · rw [hb]
          simp [Option.or_assoc]
        · have ha : lastDeclVal a.2.declarations n = none := by
            cases h b (by simp) hb with
            | inl h2 => exact h2
            | inr h2 => exact absurd h2 hle
          rw [ha]
          simp [Option.or_assoc]

/-- Stability of the cascade's sort for the decided property: when all
declarers of the property are tied at one specificity, sorting does not
change which rule's declaration wins. -/
theorem lastRuleVal_stableSort (M : List (Specificity × Rule))
    (sp : Specificity) (n : String)
    (hkeys : ∀ z ∈ M, lastDeclVal z.2.declarations n ≠ none → z.1 = sp) :
    lastRuleVal (stableSort (fun p q => specLe p.1 q.1) M) n =
      lastRuleVal M n := by
  induction M with
  | nil => rw [stableSort]
  | cons a M ih =>
      rw [stableSort,
        lastRuleVal_stableInsert a (stableSort (fun p q => specLe p.1 q.1) M) n
          ?_,
        ih (fun z hz hd => hkeys z (by simp [hz]) hd),
        lastRuleVal_cons]
      intro z hz hd
      by_cases ha : lastDeclVal a.2.declarations n = none
      · exact Or.inl ha
      · refine Or.inr ?_
        rw [hkeys a (by simp) ha,
          hkeys z (by simp [mem_stableSort _ z M hz]) hd]
        exact specLe_refl sp

/-- Counterexample to claim C5: in the stylesheet `div{color:red}`,
`div{color:blue}`, `#x{color:green}` against a `div` with `id="x"`, the
first two rules both match with equal specificity and both declare
`color`, yet `specified_values` maps `color` to green — the third,
more specific rule — not to the later tied rule's blue. -/
theorem cascade_tie_counterexample :
    matchRule exElemX exRuleRed = some ((0, 0, 1), exRuleRed) ∧
    matchRule exElemX exRuleBlue = some ((0, 0, 1), exRuleBlue) ∧
    lastDeclVal exRuleRed.declarations "color" ≠ none ∧
    lastDeclVal exRuleBlue.declarations "color" = some (Value.Keyword "blue") ∧
    pmGet (specifiedValues exElemX
      (Stylesheet.mk [exRuleRed, exRuleBlue, exRuleGreen])) "color" =
      some (Value.Keyword "green") := by
  refine ⟨?_, ?_, ?_, ?_, ?_⟩ <;>
    simp [matchRule, selectorMatches, matchesSimpleSelector, ElementData.id,
      ElementData.attr, List.find?, Selector.specificity, exElemX, exRuleRed,
      exRuleBlue, exRuleGreen, lastDeclVal, specifiedValues, matchingRules,
      stableSort, stableInsert, specLe, applyDecls, pmInsert, pmGet, pmEmpty]

/-- Claim C5 as amended: for every element and stylesheet, if two rules
at distinct positions both match the element with equal effective
specificity and both declare the property `n`, and no other rule of the
stylesheet both matches the element and declares `n`, then
`specified_values` maps `n` to the value declared (last) by the rule
appearing later in the stylesheet: the cascade's stable sort keeps
stylesheet order for equal specificities and later writes overwrite
earlier ones. -/
theorem cascade_tie_later_rule_wins_amended (elem : ElementData)
    (pre mid post : List Rule) (r1 r2 : Rule) (sp : Specificity)
    (n : String) (v : Value)
    (h1 : matchRule elem r1 = some (sp, r1))
    (h2 : matchRule elem r2 = some (sp, r2))
    (hd1 : lastDeclVal r1.declarations n ≠ none)
    (hd2 : lastDeclVal r2.declarations n = some v)
    (hothers : ∀ r ∈ pre ++ mid ++ post,
      matchRule elem r = none ∨ lastDeclVal r.declarations n = none) :
    pmGet (specifiedValues elem
      (Stylesheet.mk (pre ++ (r1 :: (mid ++ (r2 :: post)))))) n = some v := by
  have hM : matchingRules elem
      (Stylesheet.mk (pre ++ (r1 :: (mid ++ (r2 :: post))))) =
      (pre.filterMap (matchRule elem)) ++ ((sp, r1) ::
        ((mid.filterMap (matchRule elem)) ++ ((sp, r2) ::
          (post.filterMap (matchRule elem))))) := by
    simp [matchingRules, List.filterMap_append, List.filterMap_cons, h1, h2]
  have hside : ∀ (l : List Rule), (∀ r ∈ l, matchRule elem r = none ∨
      lastDeclVal r.declarations n = none) →
      ∀ z ∈ l.filterMap (matchRule elem),
        lastDeclVal z.2.declarations n = none := by
    intro l hl z hz
    obtain ⟨r, hr, hfr⟩ := List.mem_filterMap.mp hz
    cases hl r hr with
    | inl h0 =>
        rw [h0] at hfr
        exact absurd hfr (by simp)
    | inr h0 =>
        rw [matchRule_snd elem r z hfr]
        exact h0
  have hpre := hside pre (fun r hr => hothers r (by simp [hr]))
  have hmid := hside mid (fun r hr => hothers r (by simp [hr]))
  have hpost := hside post (fun r hr => hothers r (by simp [hr]))
  have hkeys : ∀ z ∈ (pre.filterMap (matchRule elem)) ++ ((sp, r1) ::
        ((mid.filterMap (matchRule elem)) ++ ((sp, r2) ::
          (post.filterMap (matchRule elem))))),
      lastDeclVal z.2.declarations n ≠ none → z.1 = sp := by
    intro z hz hd
    simp only [List.mem_append, List.mem_cons] at hz
    rcases hz with hz | hz | hz | hz | hz
    · exact absurd (hpre z hz) hd
    · rw [hz]
    · exact absurd (hmid z hz) hd
    · rw [hz]
    · exact absurd (hpost z hz) hd
  simp only [specifiedValues]
  rw [pmGet_foldRules, hM, lastRuleVal_stableSort _ sp n hkeys,
    lastRuleVal_append, lastRuleVal_cons, lastRuleVal_append,
    lastRuleVal_cons,
    lastRuleVal_none _ n hpre, lastRuleVal_none _ n hmid,
    lastRuleVal_none _ n hpost, hd2]
  simp [pmGet, pmEmpty]

/-- Witness for the amended claim C5: the stylesheet `span{color:black}`
(not matching), `div{color:red}`, `div{color:blue}`,
`div{font-size:16px}` (matching but not declaring color) against a
`div` with `id="x"`: the later tied rule's blue wins. -/
theorem cascade_tie_later_rule_wins_amended_witness :
    matchRule exElemX exRuleRed = some ((0, 0, 1), exRuleRed) ∧
    matchRule exElemX exRuleBlue = some ((0, 0, 1), exRuleBlue) ∧
    lastDeclVal exRuleRed.declarations "color" ≠ none ∧
    lastDeclVal exRuleBlue.declarations "color" = some (Value.Keyword "blue") ∧
    (∀ r ∈ [exRuleSpan] ++ [] ++ [exRuleFont],
      matchRule exElemX r = none ∨
        lastDeclVal r.declarations "color" = none) ∧
    pmGet (specifiedValues exElemX
      (Stylesheet.mk ([exRuleSpan] ++ (exRuleRed ::
        ([] ++ (exRuleBlue :: [exRuleFont])))))) "color" =
      some (Value.Keyword "blue") := by
  have h1 : matchRule exElemX exRuleRed = some ((0, 0, 1), exRuleRed) := by
    simp [matchRule, selectorMatches, matchesSimpleSelector, ElementData.id,
      ElementData.attr, List.find?, Selector.specificity, exElemX, exRuleRed]
  have h2 : matchRule exElemX exRuleBlue = some ((0, 0, 1), exRuleBlue) := by
    simp [matchRule, selectorMatches, matchesSimpleSelector, ElementData.id,
      ElementData.attr, List.find?, Selector.specificity, exElemX, exRuleBlue]
  have hd1 : lastDeclVal exRuleRed.declarations "color" ≠ none := by
    simp [lastDeclVal, exRuleRed]
  have hd2 : lastDeclVal exRuleBlue.declarations "color" =
      some (Value.Keyword "blue") := by
    simp [lastDeclVal, exRuleBlue]
  have hothers : ∀ r ∈ [exRuleSpan] ++ [] ++ [exRuleFont],
      matchRule exElemX r = none ∨
        lastDeclVal r.declarations "color" = none := by
    intro r hr
    simp only [List.append_nil, List.nil_append, List.cons_append,
      List.mem_cons, List.mem_singleton, List.not_mem_nil] at hr
    rcases hr with hr | hr
    · subst hr
      left
      simp [matchRule, selectorMatches, matchesSimpleSelector,
        ElementData.id, ElementData.attr, List.find?, exElemX, exRuleSpan]
    · rcases hr with hr | hr
      · subst hr
        right
        simp [lastDeclVal, exRuleFont]
      · exact absurd hr (by simp)
  exact ⟨h1, h2, hd1, hd2, hothers,
    cascade_tie_later_rule_wins_amended exElemX [exRuleSpan] [] [exRuleFont]
      exRuleRed exRuleBlue (0, 0, 1) "color" (Value.Keyword "blue")
      h1 h2 hd1 hd2 hothers⟩

/-! ### Selector matching -/

/-- `matches_simple_selector` succeeds exactly when the three criteria
(tag, id, classes) hold, absent criteria vacuously. -/
theorem matchesSimpleSelector_iff (elem : ElementData) (sel : SimpleSelector) :
    matchesSimpleSelector elem sel = true ↔
      ((∀ t ∈ sel.tag_name, elem.tag_name = t) ∧
       (∀ i ∈ sel.id, elem.id = some i) ∧
       (∀ c ∈ sel.cls, c ∈ elem.classes)) := by
  cases sel with
  | mk t i cls =>
      cases t <;> cases i <;>
        simp [matchesSimpleSelector, Option.any, List.any_eq_true,
          List.contains, decide_eq_true_iff]

/-- Counterexample to claim C6: the element `class="a&#9;b"` (tab
separated) has `a` among its whitespace-split class tokens, yet the
selector with single class `a` does not match it, because the source
splits the class attribute on the space character only. -/
theorem class_matching_counterexample :
    "a" ∈ specClassTokens "a\tb" ∧
    matchesSimpleSelector (ElementData.mk "p" [("class", "a\tb")])
      (SimpleSelector.mk none none ["a"]) = false := by
  constructor
  · decide
  · decide

/-- Claim C6 as amended: with the element's class tokens obtained by
splitting the `class` attribute on the space character `' '` (not on
arbitrary whitespace): a universal selector matches every element, a
single-class selector matches iff the class is among those tokens, a
single-id selector matches iff the `id` attribute equals it exactly, and
in general matching holds iff all three criteria are satisfied, absent
criteria vacuously. -/
theorem matching_correctness_space_split :
    (∀ elem : ElementData,
      matchesSimpleSelector elem (SimpleSelector.mk none none []) = true) ∧
    (∀ (elem : ElementData) (c : String),
      (matchesSimpleSelector elem (SimpleSelector.mk none none [c]) = true ↔
        c ∈ elem.classes)) ∧
    (∀ (elem : ElementData) (i : String),
      (matchesSimpleSelector elem (SimpleSelector.mk none (some i) []) = true ↔
        elem.id = some i)) ∧
    (∀ (elem : ElementData) (sel : SimpleSelector),
      (matchesSimpleSelector elem sel = true ↔
        ((∀ t ∈ sel.tag_name, elem.tag_name = t) ∧
         (∀ i ∈ sel.id, elem.id = some i) ∧
         (∀ c ∈ sel.cls, c ∈ elem.classes)))) := by
  refine ⟨?_, ?_, ?_, fun elem sel => matchesSimpleSelector_iff elem sel⟩
  · intro elem
    simp [matchesSimpleSelector_iff]
  · intro elem c
    simp [matchesSimpleSelector_iff]
  · intro elem i
    simp [matchesSimpleSelector_iff]

/-! ### The layout tree builder -/


theorem box_type_mk (d : Dimensions) (bt : BoxType) (cs : List LayoutBox) :
    (LayoutBox.mk d bt cs).box_type = bt := rfl

theorem children_mk (d : Dimensions) (bt : BoxType) (cs : List LayoutBox) :
    (LayoutBox.mk d bt cs).children = cs := rfl

theorem dimensions_mk (d : Dimensions) (bt : BoxType) (cs : List LayoutBox) :
    (LayoutBox.mk d bt cs).dimensions = d := rfl

theorem pushChild_box_type (root b : LayoutBox) :
    (pushChild root b).box_type = root.box_type := rfl

theorem pushVia_box_type (root b : LayoutBox) :
    (pushViaInlineContainer root b).box_type = root.box_type := by
  unfold pushViaInlineContainer
  cases hbt : root.box_type with
  | InlineNode s => simp [pushChild, box_type_mk, hbt]
  | AnonymousBlock => simp [pushChild, box_type_mk, hbt]
  | BlockNode s =>
      simp only [hbt]
      cases root.children.getLast? with
      | none => simp [pushChild, box_type_mk, hbt]
      | some last =>
          by_cases ha : last.isAnon <;>
            simp [ha, pushChild, box_type_mk, hbt]

theorem buildChildren_box_type (cs : List StyledNode) :
    ∀ (root b : LayoutBox), buildChildren cs root = some b →
      b.box_type = root.box_type := by
  induction cs with
  | nil =>
      intro root b hb
      rw [buildChildren] at hb
      cases hb
      rfl
  | cons c rest ih =>
      intro root b hb
      rw [buildChildren] at hb
      cases hd : c.display <;> rw [hd] at hb
      · cases hbc : buildLayoutTree c <;> rw [hbc] at hb
        · exact absurd hb (by simp)
        · exact (ih _ _ hb).trans (pushVia_box_type root _)
      · cases hbc : buildLayoutTree c <;> rw [hbc] at hb
        · exact absurd hb (by simp)
        · exact (ih _ _ hb).trans (pushChild_box_type root _)
      · exact ih _ _ hb

theorem buildTree_box_type (s : StyledNode) (b : LayoutBox)
    (hb : buildLayoutTree s = some b) :
    (s.display = Display.Block → b.box_type = BoxType.BlockNode s) ∧
    (s.display = Display.Inline → b.box_type = BoxType.InlineNode s) := by
  rw [buildLayoutTree] at hb
  cases hd : s.display <;> rw [hd] at hb
  · refine ⟨fun h => ?_, fun _ =>
      (buildChildren_box_type s.children _ b hb).trans (box_type_mk _ _ _)⟩
    exact absurd h (by simp)
  · refine ⟨fun _ =>
      (buildChildren_box_type s.children _ b hb).trans (box_type_mk _ _ _),
      fun h => ?_⟩
    exact absurd h (by simp)
  · exact absurd hb (by simp)



theorem allBoxes_eq (p : LayoutBox → Bool) (b : LayoutBox) :
    allBoxes p b = (p b && allBoxesList p b.children) := by
  rw [allBoxes]

theorem allBoxesList_nil (p : LayoutBox → Bool) : allBoxesList p [] = true := by
  rw [allBoxesList.eq_def]

theorem allBoxesList_cons (p : LayoutBox → Bool) (c : LayoutBox)
    (rest : List LayoutBox) :
    allBoxesList p (c :: rest) = (allBoxes p c && allBoxesList p rest) := by
  rw [allBoxesList.eq_def]

theorem allBoxesList_append (p : LayoutBox → Bool) (cs ds : List LayoutBox) :
    allBoxesList p (cs ++ ds) = (allBoxesList p cs && allBoxesList p ds) := by
  induction cs with
  | nil => rw [allBoxesList_nil]; simp
  | cons c rest ih =>
      rw [List.cons_append, allBoxesList_cons, allBoxesList_cons, ih, Bool.and_assoc]

theorem isAnon_of_box_type (a b : LayoutBox)
    (h : a.box_type = b.box_type) : a.isAnon = b.isAnon := by
  unfold LayoutBox.isAnon
  rw [h]

theorem blockAnonHomogeneous_mk (d : Dimensions) (bt : BoxType)
    (cs : List LayoutBox) :
    blockAnonHomogeneous (LayoutBox.mk d bt cs) =
      (match bt with
        | BoxType.BlockNode _ => cs.all (fun c => blockLike c.box_type)
        | BoxType.AnonymousBlock => cs.all (fun c => inlineLike c.box_type)
        | BoxType.InlineNode _ => true) := rfl

theorem allBoxes_pushChild (root b : LayoutBox)
    (hroot : allBoxes blockAnonHomogeneous root = true)
    (hb : allBoxes blockAnonHomogeneous b = true)
    (hbt : blockLike b.box_type = true)
    (hna : root.isAnon = false) :
    allBoxes blockAnonHomogeneous (pushChild root b) = true := by
  cases root with
  | mk d bt cs =>
      rw [allBoxes_eq] at hroot
      simp only [Bool.and_eq_true, children_mk] at hroot
      obtain ⟨hp, hlist⟩ := hroot
      rw [pushChild, allBoxes_eq]
      simp only [children_mk, box_type_mk, allBoxesList_append, Bool.and_eq_true]
      refine ⟨?_, hlist, by rw [allBoxesList_cons, allBoxesList_nil]; simp [hb]⟩
      cases bt with
      | BlockNode s =>
          rw [blockAnonHomogeneous_mk] at hp ⊢
          simp only [List.all_append, Bool.and_eq_true] at *
          exact ⟨hp, by simp [hbt]⟩
      | InlineNode s => rw [blockAnonHomogeneous_mk]
      | AnonymousBlock => simp [LayoutBox.isAnon, box_type_mk] at hna

theorem box_type_eq_anon_of_isAnon (x : LayoutBox) (h : x.isAnon = true) :
    x.box_type = BoxType.AnonymousBlock := by
  unfold LayoutBox.isAnon at h
  cases hbt : x.box_type with
  | BlockNode s =>
      exfalso
      rw [hbt] at h
      simp at h
  | InlineNode s =>
      exfalso
      rw [hbt] at h
      simp at h
  | AnonymousBlock => rfl

theorem allBoxes_new (bt : BoxType) :
    allBoxes blockAnonHomogeneous (LayoutBox.new bt) = true := by
  rw [LayoutBox.new, allBoxes_eq]
  simp only [children_mk]
  rw [allBoxesList_nil, blockAnonHomogeneous_mk]
  cases bt <;> simp

theorem allBoxes_pushChild_into_anon (x b : LayoutBox)
    (hx : allBoxes blockAnonHomogeneous x = true)
    (hbgood : allBoxes blockAnonHomogeneous b = true)
    (hanon : x.box_type = BoxType.AnonymousBlock)
    (hbt : inlineLike b.box_type = true) :
    allBoxes blockAnonHomogeneous (pushChild x b) = true := by
  cases x with
  | mk d bt cs =>
      rw [box_type_mk] at hanon
      subst hanon
      rw [allBoxes_eq] at hx
      simp only [children_mk, Bool.and_eq_true] at hx
      obtain ⟨hp, hlist⟩ := hx
      rw [pushChild, allBoxes_eq]
      simp only [children_mk, box_type_mk, dimensions_mk, Bool.and_eq_true]
      rw [blockAnonHomogeneous_mk] at hp ⊢
      constructor
      · simp only [List.all_append, List.all_cons, List.all_nil,
          Bool.and_eq_true, and_true]
        exact ⟨hp, hbt⟩
      · rw [allBoxesList_append, allBoxesList_cons, allBoxesList_nil]
        simp [hlist, hbgood]

theorem allBoxes_pushInline (root b : LayoutBox)
    (hroot : allBoxes blockAnonHomogeneous root = true)
    (hb : allBoxes blockAnonHomogeneous b = true)
    (hbt : inlineLike b.box_type = true) :
    allBoxes blockAnonHomogeneous (pushViaInlineContainer root b) = true := by
  cases root with
  | mk d bt cs =>
      have hroot2 := hroot
      rw [allBoxes_eq] at hroot2
      simp only [Bool.and_eq_true, children_mk] at hroot2
      obtain ⟨hp, hlist⟩ := hroot2
      unfold pushViaInlineContainer
      simp only [box_type_mk]
      cases bt with
      | InlineNode s =>
          rw [pushChild, allBoxes_eq]
          simp only [children_mk, box_type_mk, dimensions_mk,
            allBoxesList_append, Bool.and_eq_true]
          exact ⟨by rw [blockAnonHomogeneous_mk], hlist,
            by rw [allBoxesList_cons, allBoxesList_nil]; simp [hb]⟩
      | AnonymousBlock =>
          exact allBoxes_pushChild_into_anon _ b hroot hb (box_type_mk _ _ _) hbt
      | BlockNode s =>
          rw [blockAnonHomogeneous_mk] at hp
          have hfreshgood :
              allBoxes blockAnonHomogeneous
                (pushChild (LayoutBox.new BoxType.AnonymousBlock) b) = true :=
            allBoxes_pushChild_into_anon _ b (allBoxes_new _) hb rfl hbt
          have hfreshbt :
              blockLike (pushChild (LayoutBox.new BoxType.AnonymousBlock) b).box_type
                = true := by
            rw [pushChild_box_type]
            rfl
          cases hlast : (LayoutBox.mk d (BoxType.BlockNode s) cs).children.getLast? with
          | none =>
              exact allBoxes_pushChild _ _ hroot hfreshgood hfreshbt rfl
          | some last =>
              rw [children_mk] at hlast
              by_cases ha : last.isAnon
              · simp only [ha, if_true]
                have hcs : cs.dropLast ++ [last] = cs :=
                  List.dropLast_append_getLast? last hlast
                rw [← hcs] at hp hlist
                rw [allBoxesList_append, allBoxesList_cons, allBoxesList_nil] at hlist
                simp only [Bool.and_eq_true, and_true] at hlist
                obtain ⟨hdrop, hlastgood⟩ := hlist
                simp only [List.all_append, List.all_cons, List.all_nil,
                  Bool.and_eq_true, and_true] at hp
                obtain ⟨hpdrop, hplast⟩ := hp
                have hanonbt := box_type_eq_anon_of_isAnon last ha
                rw [allBoxes_eq]
                simp only [children_mk, box_type_mk, dimensions_mk, Bool.and_eq_true]
                constructor
                · rw [blockAnonHomogeneous_mk]
                  simp only [List.all_append, List.all_cons, List.all_nil,
                    Bool.and_eq_true, and_true]
                  refine ⟨hpdrop, ?_⟩
                  rw [pushChild_box_type, hanonbt]
                  rfl
                · rw [allBoxesList_append, allBoxesList_cons, allBoxesList_nil]
                  simp only [Bool.and_eq_true, and_true]
                  exact ⟨hdrop,
                    allBoxes_pushChild_into_anon last b hlastgood hb hanonbt hbt⟩
              · simp only [ha, if_false]
                exact allBoxes_pushChild _ _ hroot hfreshgood hfreshbt rfl



theorem isAnon_pushChild (root b : LayoutBox) :
    (pushChild root b).isAnon = root.isAnon :=
  isAnon_of_box_type _ _ (pushChild_box_type root b)

theorem isAnon_pushVia (root b : LayoutBox) :
    (pushViaInlineContainer root b).isAnon = root.isAnon :=
  isAnon_of_box_type _ _ (pushVia_box_type root b)

mutual

theorem buildTree_isSome (s : StyledNode) (hs : s.display ≠ Display.Node) :
    (buildLayoutTree s).isSome = true := by
  rw [buildLayoutTree]
  cases hd : s.display with
  | Block => exact buildChildren_isSome s.children _
  | Inline => exact buildChildren_isSome s.children _
  | Node => exact absurd hd hs
termination_by (sizeOf s, 1)
decreasing_by
  all_goals refine Prod.Lex.left _ _ ?_
  all_goals cases s with
  | mk m cs => simp [StyledNode.children]

theorem buildChildren_isSome (cs : List StyledNode) (root : LayoutBox) :
    (buildChildren cs root).isSome = true := by
  cases cs with
  | nil => simp [buildChildren]
  | cons c rest =>
      rw [buildChildren]
      cases hd : c.display with
      | Block =>
          have hc := buildTree_isSome c (by simp [hd])
          cases hb : buildLayoutTree c with
          | none => rw [hb] at hc; simp at hc
          | some b => exact buildChildren_isSome rest (pushChild root b)
      | Inline =>
          have hc := buildTree_isSome c (by simp [hd])
          cases hb : buildLayoutTree c with
          | none => rw [hb] at hc; simp at hc
          | some b => exact buildChildren_isSome rest (pushViaInlineContainer root b)
      | Node => exact buildChildren_isSome rest root
termination_by (sizeOf cs, 0)
decreasing_by
  all_goals simp_wf
  all_goals omega

end

mutual

theorem buildTree_good (s : StyledNode) (b : LayoutBox)
    (hb : buildLayoutTree s = some b) :
    allBoxes blockAnonHomogeneous b = true := by
  rw [buildLayoutTree] at hb
  cases hd : s.display with
  | Block =>
      rw [hd] at hb
      exact buildChildren_good s.children
        (LayoutBox.new (BoxType.BlockNode s)) b (allBoxes_new _) rfl hb
  | Inline =>
      rw [hd] at hb
      exact buildChildren_good s.children
        (LayoutBox.new (BoxType.InlineNode s)) b (allBoxes_new _) rfl hb
  | Node =>
      rw [hd] at hb
      exact absurd hb (by simp)
termination_by (sizeOf s, 1)
decreasing_by
  all_goals refine Prod.Lex.left _ _ ?_
  all_goals cases s with
  | mk m cs => simp [StyledNode.children]

theorem buildChildren_good (cs : List StyledNode) (root : LayoutBox)
    (b : LayoutBox)
    (hroot : allBoxes blockAnonHomogeneous root = true)
    (hna : root.isAnon = false)
    (hb : buildChildren cs root = some b) :
    allBoxes blockAnonHomogeneous b = true := by
  cases hcs2 : cs with
  | nil =>
      rw [hcs2, buildChildren] at hb
      cases hb
      exact hroot
  | cons c rest =>
      rw [hcs2] at hb
      rw [buildChildren] at hb
      cases hd : c.display with
      | Inline =>
          rw [hd] at hb
          cases hbc : buildLayoutTree c with
          | none =>
              rw [hbc] at hb
              exact absurd hb (by simp)
          | some bc =>
              rw [hbc] at hb
              have hgood := buildTree_good c bc hbc
              have hibt : inlineLike bc.box_type = true := by
                rw [(buildTree_box_type c bc hbc).2 hd]
                rfl
              exact buildChildren_good rest _ b
                (allBoxes_pushInline root bc hroot hgood hibt)
                (by rw [isAnon_pushVia]; exact hna) hb
      | Block =>
          rw [hd] at hb
          cases hbc : buildLayoutTree c with
          | none =>
              rw [hbc] at hb
              exact absurd hb (by simp)
          | some bc =>
              rw [hbc] at hb
              have hgood := buildTree_good c bc hbc
              have hbbt : blockLike bc.box_type = true := by
                rw [(buildTree_box_type c bc hbc).1 hd]
                rfl
              exact buildChildren_good rest _ b
                (allBoxes_pushChild root bc hroot hgood hbbt hna)
                (by rw [isAnon_pushChild]; exact hna) hb
      | Node =>
          rw [hd] at hb
          exact buildChildren_good rest root b hroot hna hb
termination_by (sizeOf cs, 0)
decreasing_by
  all_goals refine Prod.Lex.left _ _ ?_
  all_goals rw [hcs2]
  all_goals simp
  all_goals omega

end



/-- Claim C8: `build_layout_tree` fails (the modelled panic) exactly when
the root styled node's display resolves to none; a block or inline root
always yields a layout tree, and children with display none are skipped
by the child loop (dropped from the layout tree) rather than causing
failure. -/
theorem build_fails_iff_root_none :
    (∀ s : StyledNode, (buildLayoutTree s = none ↔ s.display = Display.Node)) ∧
    (∀ (cs : List StyledNode) (root : LayoutBox),
      buildChildren cs root =
        buildChildren (cs.filter (fun c => c.display ≠ Display.Node)) root) := by
  constructor
  · intro s
    constructor
    · intro hnone
      by_contra hne
      have hs := buildTree_isSome s hne
      rw [hnone] at hs
      simp at hs
    · intro hd
      rw [buildLayoutTree, hd]
  · intro cs
    induction cs with
    | nil => intro root; rfl
    | cons c rest ih =>
        intro root
        rw [buildChildren]
        cases hd : c.display with
        | Node =>
            have hfil : (c :: rest).filter (fun c => c.display ≠ Display.Node) =
                rest.filter (fun c => c.display ≠ Display.Node) := by
              simp [List.filter_cons, hd]
            rw [hfil]
            exact ih root
        | Block =>
            have hfil : (c :: rest).filter (fun c => c.display ≠ Display.Node) =
                c :: rest.filter (fun c => c.display ≠ Display.Node) := by
              simp [List.filter_cons, hd]
            rw [hfil, buildChildren, hd]
            cases hbc : buildLayoutTree c with
            | none => rfl
            | some bc => exact ih (pushChild root bc)
        | Inline =>
            have hfil : (c :: rest).filter (fun c => c.display ≠ Display.Node) =
                c :: rest.filter (fun c => c.display ≠ Display.Node) := by
              simp [List.filter_cons, hd]
            rw [hfil, buildChildren, hd]
            cases hbc : buildLayoutTree c with
            | none => rfl
            | some bc => exact ih (pushViaInlineContainer root bc)



/-- Claim C7: a block-display styled node with exactly two children, the
first inline and the second block, produces a root box with exactly two
children: an anonymous block wrapping the inline child's box, then the
block child's box. -/
theorem anonymous_box_insertion (s c1 c2 : StyledNode)
    (hs : s.display = Display.Block)
    (hcs : s.children = [c1, c2])
    (h1 : c1.display = Display.Inline)
    (h2 : c2.display = Display.Block) :
    ∃ b1 b2, buildLayoutTree c1 = some b1 ∧ buildLayoutTree c2 = some b2 ∧
      buildLayoutTree s = some (LayoutBox.mk Dimensions.default
        (BoxType.BlockNode s)
        [LayoutBox.mk Dimensions.default BoxType.AnonymousBlock [b1], b2]) := by
  obtain ⟨b1, hb1⟩ := Option.isSome_iff_exists.mp (buildTree_isSome c1 (by simp [h1]))
  obtain ⟨b2, hb2⟩ := Option.isSome_iff_exists.mp (buildTree_isSome c2 (by simp [h2]))
  refine ⟨b1, b2, hb1, hb2, ?_⟩
  have hpush1 : pushViaInlineContainer (LayoutBox.new (BoxType.BlockNode s)) b1 =
      LayoutBox.mk Dimensions.default (BoxType.BlockNode s)
        [LayoutBox.mk Dimensions.default BoxType.AnonymousBlock [b1]] := by
    unfold pushViaInlineContainer LayoutBox.new pushChild
    simp [box_type_mk, children_mk, dimensions_mk]
  simp only [buildLayoutTree, hs, hcs, buildChildren, h1, h2, hb1, hb2]
  rw [hpush1]
  simp [pushChild, children_mk, box_type_mk, dimensions_mk]

/-- Claim C3 as amended: in every layout tree the builder returns, each
block box has only block-like children and each anonymous block only
inline children (hence their children are homogeneous); an inline box's
children may mix, which is what refutes the original claim. -/
theorem layout_children_homogeneous_amended (s : StyledNode) (B : LayoutBox)
    (hB : buildLayoutTree s = some B) :
    allBoxes blockAnonHomogeneous B = true :=
  buildTree_good s B hB

/-- Counterexample to claim C3: an inline-display root (display not
none) with a block child followed by an inline child gets mixed direct
children, so not every box of the layout tree has homogeneous
children. -/
theorem mixed_children_counterexample :
    exInlineMix.display = Display.Inline ∧
    (buildLayoutTree exInlineMix).map (allBoxes homogeneousChildren) =
      some false := by
  constructor
  · rfl
  · simp [buildLayoutTree, buildChildren, exInlineMix, exBlockChild,
      exInlineChild, StyledNode.display, StyledNode.value,
      StyledNode.specified_values, StyledNode.children, pmGet, pushChild,
      pushViaInlineContainer, LayoutBox.new, allBoxes, allBoxesList,
      homogeneousChildren, blockLike, inlineLike, box_type_mk, children_mk]

/-- Witness for the amended claim C3, at the block root with an inline
and a block child. -/
theorem layout_children_homogeneous_amended_witness :
    buildLayoutTree exBlockRoot = some (LayoutBox.mk Dimensions.default
      (BoxType.BlockNode exBlockRoot)
      [LayoutBox.mk Dimensions.default BoxType.AnonymousBlock
        [LayoutBox.mk Dimensions.default (BoxType.InlineNode exInlineChild) []],
       LayoutBox.mk Dimensions.default (BoxType.BlockNode exBlockChild) []]) ∧
    allBoxes blockAnonHomogeneous (LayoutBox.mk Dimensions.default
      (BoxType.BlockNode exBlockRoot)
      [LayoutBox.mk Dimensions.default BoxType.AnonymousBlock
        [LayoutBox.mk Dimensions.default (BoxType.InlineNode exInlineChild) []],
       LayoutBox.mk Dimensions.default (BoxType.BlockNode exBlockChild) []]) =
      true := by
  have hbuild : buildLayoutTree exBlockRoot = some (LayoutBox.mk Dimensions.default
      (BoxType.BlockNode exBlockRoot)
      [LayoutBox.mk Dimensions.default BoxType.AnonymousBlock
        [LayoutBox.mk Dimensions.default (BoxType.InlineNode exInlineChild) []],
       LayoutBox.mk Dimensions.default (BoxType.BlockNode exBlockChild) []]) := by
    simp [buildLayoutTree, buildChildren, exBlockRoot, exBlockChild,
      exInlineChild, StyledNode.display, StyledNode.value,
      StyledNode.specified_values, StyledNode.children, pmGet, pushChild,
      pushViaInlineContainer, LayoutBox.new, box_type_mk, children_mk,
      dimensions_mk]
  exact ⟨hbuild, layout_children_homogeneous_amended _ _ hbuild⟩

/-- Witness for claim C7, at the block root with an inline child then a
block child. -/
theorem anonymous_box_insertion_witness :
    exBlockRoot.display = Display.Block ∧
    exBlockRoot.children = [exInlineChild, exBlockChild] ∧
    exInlineChild.display = Display.Inline ∧
    exBlockChild.display = Display.Block ∧
    (∃ b1 b2, buildLayoutTree exInlineChild = some b1 ∧
      buildLayoutTree exBlockChild = some b2 ∧
      buildLayoutTree exBlockRoot = some (LayoutBox.mk Dimensions.default
        (BoxType.BlockNode exBlockRoot)
        [LayoutBox.mk Dimensions.default BoxType.AnonymousBlock [b1], b2])) :=
  ⟨rfl, rfl, rfl, rfl,
    anonymous_box_insertion exBlockRoot exInlineChild exBlockChild rfl rfl rfl rfl⟩


/-! ### The block layout pass -/


mutual

theorem layoutBox_isSome (b : LayoutBox) (cb : Dimensions) :
    (layoutBox b cb).isSome = true := by
  rw [layoutBox]
  cases hbt : b.box_type with
  | BlockNode s =>
      rw [layoutBlock]
      simp only [LayoutBox.get_style_node, hbt]
      have hch := layoutChildren_isSome b.children
        (calculateBlockPosition s (calculateBlockWidth s b.dimensions cb) cb)
      cases hlc : layoutChildren b.children
          (calculateBlockPosition s (calculateBlockWidth s b.dimensions cb) cb) with
      | none =>
          rw [hlc] at hch
          simp at hch
      | some pr =>
          cases pr with
          | mk cs2 d2 => simp
  | InlineNode s => simp
  | AnonymousBlock => simp
termination_by (sizeOf b, 1)
decreasing_by
  all_goals refine Prod.Lex.left _ _ ?_
  all_goals cases b with
  | mk d bt cs => simp [LayoutBox.children]

theorem layoutChildren_isSome (cs : List LayoutBox) (d : Dimensions) :
    (layoutChildren cs d).isSome = true := by
  cases hcs : cs with
  | nil => simp [layoutChildren]
  | cons c rest =>
      rw [layoutChildren]
      have hc := layoutBox_isSome c d
      cases hb : layoutBox c d with
      | none =>
          rw [hb] at hc
          simp at hc
      | some c2 =>
          have hr := layoutChildren_isSome rest (bumpHeight d c2)
          cases hr2 : layoutChildren rest (bumpHeight d c2) with
          | none =>
              rw [hr2] at hr
              simp at hr
          | some pr =>
              cases pr with
              | mk cs3 d3 => simp [hr2]
termination_by (sizeOf cs, 0)
decreasing_by
  all_goals refine Prod.Lex.left _ _ ?_
  all_goals simp_arith

end



/-- Claim C10: layout never evaluates the failing branch of
`get_style_node`: laying out any box succeeds (the modelled panic,
`none`, is unreachable), and inline and anonymous boxes are no-ops that
keep their dimensions, so an anonymous block is never asked for its
style node during layout. -/
theorem layout_never_queries_anonymous_style :
    (∀ (b : LayoutBox) (cb : Dimensions), (layoutBox b cb).isSome = true) ∧
    (∀ (d : Dimensions) (cs : List LayoutBox) (cb : Dimensions),
      layoutBox (LayoutBox.mk d BoxType.AnonymousBlock cs) cb =
        some (LayoutBox.mk d BoxType.AnonymousBlock cs)) ∧
    (∀ (d : Dimensions) (s : StyledNode) (cs : List LayoutBox) (cb : Dimensions),
      layoutBox (LayoutBox.mk d (BoxType.InlineNode s) cs) cb =
        some (LayoutBox.mk d (BoxType.InlineNode s) cs)) := by
  refine ⟨layoutBox_isSome, ?_, ?_⟩
  · intro d cs cb
    rw [layoutBox]
    simp [box_type_mk]
  · intro d s cs cb
    rw [layoutBox]
    simp [box_type_mk]

/-- Claim C9: `layout_tree` zeroes the containing block's content
height before laying out, so its result does not depend on the supplied
initial content height. -/
theorem layout_ignores_initial_height (s : StyledNode) (cb : Dimensions)
    (h1 h2 : ℚ) :
    layoutTree s { cb with content := { cb.content with height := h1 } } =
      layoutTree s { cb with content := { cb.content with height := h2 } } := by
  cases cb with
  | mk content padding border margin =>
      cases content with
      | mk x y w h => rfl

theorem layoutChildren_preserves (cs : List LayoutBox) :
    ∀ (d : Dimensions) (cs2 : List LayoutBox) (d2 : Dimensions),
      layoutChildren cs d = some (cs2, d2) →
      d2.content.x = d.content.x ∧ d2.content.y = d.content.y ∧
        d2.content.width = d.content.width ∧ d2.padding = d.padding ∧
        d2.border = d.border ∧ d2.margin = d.margin := by
  induction cs with
  | nil =>
      intro d cs2 d2 h
      rw [layoutChildren] at h
      cases h
      exact ⟨rfl, rfl, rfl, rfl, rfl, rfl⟩
  | cons c rest ih =>
      intro d cs2 d2 h
      rw [layoutChildren] at h
      cases hb : layoutBox c d with
      | none =>
          rw [hb] at h
          exact absurd h (by simp)
      | some c2 =>
          rw [hb] at h
          simp only [] at h
          cases hr : layoutChildren rest (bumpHeight d c2) with
          | none =>
              rw [hr] at h
              exact absurd h (by simp)
          | some pr =>
              cases pr with
              | mk rest2 d3 =>
                  rw [hr] at h
                  cases h
                  exact ih (bumpHeight d c2) rest2 _ hr



theorem calcPos_fields (style : StyledNode) (d cb : Dimensions) :
    (calculateBlockPosition style d cb).margin.top =
      (style.lookup "margin-top" "margin" zeroLen).to_px ∧
    (calculateBlockPosition style d cb).border.top =
      (style.lookup "border-top-width" "border-width" zeroLen).to_px ∧
    (calculateBlockPosition style d cb).padding.top =
      (style.lookup "padding-top" "padding" zeroLen).to_px ∧
    (calculateBlockPosition style d cb).content.y =
      cb.content.height + cb.content.y +
        (style.lookup "margin-top" "margin" zeroLen).to_px +
        (style.lookup "border-top-width" "border-width" zeroLen).to_px +
        (style.lookup "padding-top" "padding" zeroLen).to_px := by
  refine ⟨rfl, rfl, rfl, rfl⟩

theorem calcHeight_fields (style : StyledNode) (d : Dimensions) :
    (calculateBlockHeight style d).content.y = d.content.y ∧
    (calculateBlockHeight style d).content.x = d.content.x ∧
    (calculateBlockHeight style d).margin = d.margin ∧
    (calculateBlockHeight style d).border = d.border ∧
    (calculateBlockHeight style d).padding = d.padding := by
  rw [calculateBlockHeight]
  split
  · exact ⟨rfl, rfl, rfl, rfl, rfl⟩
  · exact ⟨rfl, rfl, rfl, rfl, rfl⟩

theorem layoutBox_block_y (b : LayoutBox) (style : StyledNode)
    (cb : Dimensions) (b2 : LayoutBox)
    (hbt : b.box_type = BoxType.BlockNode style)
    (h : layoutBox b cb = some b2) :
    b2.dimensions.content.y = cb.content.y + cb.content.height +
      (b2.dimensions.margin.top + b2.dimensions.border.top +
        b2.dimensions.padding.top) := by
  rw [layoutBox] at h
  rw [hbt] at h
  simp only [] at h
  rw [layoutBlock] at h
  simp only [LayoutBox.get_style_node, hbt] at h
  cases hlc : layoutChildren b.children
      (calculateBlockPosition style (calculateBlockWidth style b.dimensions cb) cb) with
  | none =>
      rw [hlc] at h
      exact absurd h (by simp)
  | some pr =>
      cases pr with
      | mk cs2 d3 =>
          rw [hlc] at h
          cases h
          obtain ⟨hmt, hbt2, hpt, hy⟩ :=
            calcPos_fields style (calculateBlockWidth style b.dimensions cb) cb
          obtain ⟨hx, hy2, hw, hp, hbr, hm⟩ := layoutChildren_preserves b.children
            (calculateBlockPosition style (calculateBlockWidth style b.dimensions cb) cb)
            cs2 d3 hlc
          obtain ⟨hhy, hhx, hhm, hhb, hhp⟩ := calcHeight_fields style d3
          simp only [dimensions_mk, hhy, hhm, hhb, hhp, hy2, hy, hm, hbr, hp,
            hmt, hbt2, hpt]
          ring



theorem layoutChildren_stacking_aux (cs : List LayoutBox) :
    ∀ (d : Dimensions) (cs2 : List LayoutBox) (d2 : Dimensions),
      (∀ c ∈ cs, ∃ st, c.box_type = BoxType.BlockNode st) →
      layoutChildren cs d = some (cs2, d2) →
      ((∀ (k : ℕ) (hk : k < cs2.length),
        (cs2.get ⟨k, hk⟩).dimensions.content.y =
          d.content.y + d.content.height +
            ((cs2.take k).map (fun c => c.dimensions.margin_box.height)).sum +
            ((cs2.get ⟨k, hk⟩).dimensions.margin.top +
              (cs2.get ⟨k, hk⟩).dimensions.border.top +
              (cs2.get ⟨k, hk⟩).dimensions.padding.top)) ∧
      d2.content.height = d.content.height +
        ((cs2.map (fun c => c.dimensions.margin_box.height)).sum)) := by
  induction cs with
  | nil =>
      intro d cs2 d2 hblocks h
      rw [layoutChildren] at h
      cases h
      constructor
      · intro k hk
        exact absurd hk (by simp)
      · simp
  | cons c rest ih =>
      intro d cs2 d2 hblocks h
      rw [layoutChildren] at h
      cases hb : layoutBox c d with
      | none =>
          rw [hb] at h
          exact absurd h (by simp)
      | some c2 =>
          rw [hb] at h
          simp only [] at h
          cases hr : layoutChildren rest (bumpHeight d c2) with
          | none =>
              rw [hr] at h
              exact absurd h (by simp)
          | some pr =>
              cases pr with
              | mk rest2 d3 =>
                  rw [hr] at h
                  cases h
                  obtain ⟨hst, hstbt⟩ := hblocks c (by simp)
                  have hc2y := layoutBox_block_y c hst d c2 hstbt hb
                  obtain ⟨ihy, ihh⟩ := ih (bumpHeight d c2) rest2 d2
                    (fun x hx => hblocks x (by simp [hx])) hr
                  have hbump_h : (bumpHeight d c2).content.height =
                      d.content.height + c2.dimensions.margin_box.height := rfl
                  have hbump_y : (bumpHeight d c2).content.y = d.content.y := rfl
                  constructor
                  · intro k hk
                    cases k with
                    | zero =>
                        have hget : (c2 :: rest2).get ⟨0, hk⟩ = c2 := rfl
                        rw [hget, hc2y, List.take_zero, List.map_nil,
                          List.sum_nil]
                        ring
                    | succ k =>
                        have hk2 : k < rest2.length := by
                          simpa using hk
                        have hget : (c2 :: rest2).get ⟨k + 1, hk⟩ =
                            rest2.get ⟨k, hk2⟩ := rfl
                        rw [hget, ihy k hk2, hbump_y, hbump_h,
                          List.take_succ_cons, List.map_cons, List.sum_cons]
                        ring
                  · rw [ihh, hbump_h]
                    simp only [List.map_cons, List.sum_cons]
                    ring



/-- Claim C2: for a block box with block children laid out via
`layout_block_children` starting from content height 0, child `k`'s
`content.y` equals the parent's `content.y` plus the margin-box heights
of children `0..k-1` plus the child's own top margin, border and
padding; and afterwards the parent's content height is the sum of all
the children's margin-box heights. -/
theorem vertical_stacking (cs : List LayoutBox) (d : Dimensions)
    (cs2 : List LayoutBox) (d2 : Dimensions)
    (hblocks : ∀ c ∈ cs, ∃ st, c.box_type = BoxType.BlockNode st)
    (hh : d.content.height = 0)
    (h : layoutChildren cs d = some (cs2, d2)) :
    ((∀ (k : ℕ) (hk : k < cs2.length),
      (cs2.get ⟨k, hk⟩).dimensions.content.y =
        d.content.y +
          ((cs2.take k).map (fun c => c.dimensions.margin_box.height)).sum +
          ((cs2.get ⟨k, hk⟩).dimensions.margin.top +
            (cs2.get ⟨k, hk⟩).dimensions.border.top +
            (cs2.get ⟨k, hk⟩).dimensions.padding.top)) ∧
    d2.content.height =
      ((cs2.map (fun c => c.dimensions.margin_box.height)).sum)) := by
  obtain ⟨hy, hht⟩ := layoutChildren_stacking_aux cs d cs2 d2 hblocks h
  constructor
  · intro k hk
    rw [hy k hk, hh]
    ring
  · rw [hht, hh]
    ring

/-- Concrete evaluation: one default block child against default
dimensions lays out to itself with no height accumulated. -/
theorem layoutChildren_single_default :
    layoutChildren [LayoutBox.new (BoxType.BlockNode exBlockChild)]
      Dimensions.default =
      some ([LayoutBox.new (BoxType.BlockNode exBlockChild)],
        Dimensions.default) := by
  simp [layoutChildren, layoutBox, layoutBlock, LayoutBox.get_style_node,
    LayoutBox.new, box_type_mk, children_mk, dimensions_mk,
    calculateBlockWidth, solveWidth, horizontalTotal, calculateBlockPosition,
    calculateBlockHeight, bumpHeight, exBlockChild, StyledNode.value,
    StyledNode.lookup, StyledNode.specified_values, pmGet, Value.to_px,
    autoVal, zeroLen, Dimensions.default, Rect.default, EdgeSizes.default,
    Dimensions.margin_box, Dimensions.border_box, Dimensions.padding_box,
    Rect.expanded_by]



/-- Witness for claim C2: a single zero-styled block child laid out
against zeroed dimensions. -/
theorem vertical_stacking_witness :
    (∀ c ∈ [LayoutBox.new (BoxType.BlockNode exBlockChild)],
      ∃ st, c.box_type = BoxType.BlockNode st) ∧
    Dimensions.default.content.height = 0 ∧
    layoutChildren [LayoutBox.new (BoxType.BlockNode exBlockChild)]
      Dimensions.default =
      some ([LayoutBox.new (BoxType.BlockNode exBlockChild)],
        Dimensions.default) ∧
    ((∀ (k : ℕ)
        (hk : k < [LayoutBox.new (BoxType.BlockNode exBlockChild)].length),
      (([LayoutBox.new (BoxType.BlockNode exBlockChild)].get
          ⟨k, hk⟩).dimensions.content.y =
        Dimensions.default.content.y +
          ((([LayoutBox.new (BoxType.BlockNode exBlockChild)].take k).map
            (fun c => c.dimensions.margin_box.height)).sum) +
          (([LayoutBox.new (BoxType.BlockNode exBlockChild)].get
              ⟨k, hk⟩).dimensions.margin.top +
            ([LayoutBox.new (BoxType.BlockNode exBlockChild)].get
              ⟨k, hk⟩).dimensions.border.top +
            ([LayoutBox.new (BoxType.BlockNode exBlockChild)].get
              ⟨k, hk⟩).dimensions.padding.top))) ∧
    Dimensions.default.content.height =
      (([LayoutBox.new (BoxType.BlockNode exBlockChild)].map
        (fun c => c.dimensions.margin_box.height)).sum)) := by
  have hbl : ∀ c ∈ [LayoutBox.new (BoxType.BlockNode exBlockChild)],
      ∃ st, c.box_type = BoxType.BlockNode st := by
    intro c hc
    simp at hc
    subst hc
    exact ⟨exBlockChild, rfl⟩
  exact ⟨hbl, rfl, layoutChildren_single_default,
    vertical_stacking _ _ _ _ hbl rfl layoutChildren_single_default⟩


end Engine
